import Mathlib

/-!
Shallow embedding of the board data model, pick/edit protocol and
persistence codec of `src/dungeon_board_editor_4_x_4_react.tsx`.

Modelling conventions:
* TypeScript string-union types (`CellType`, `EdgeType`, `ObjType`,
  `ToolMode`) are erased at runtime; the importer installs raw JSON
  values verbatim, so cells, edges and object types are modelled as
  `String` and tool modes / brushes likewise.  Validity of a value is a
  separate predicate, not a typing constraint.
* JS numbers are modelled as `ℚ` (all arithmetic the core performs on
  them is exact on the rationals); object rotations, which the editor
  only ever produces as integers, are modelled as `ℤ`.  The JS `%` in
  `(rotation + 90) % 360` is modelled by `Int.emod`, which agrees with
  the JS remainder on the non-negative operands arising here.
* React `useState` cells that `applyPick` / `importJson` read or write
  are gathered into one record `EditorState`; `setX(v)` becomes a
  functional update of the corresponding field.  The brushes and the
  tool mode, which those functions only read, form `ToolConfig`.
* Array reads `a[i]` are `List.getD` and writes are `List.set`.  Every
  index the running system produces is in range (picks are clamped
  before indices are computed), where `getD`/`set` coincide with the
  JS semantics.
* `customBrush` has TS type `string | null` and is tested for
  truthiness; `null` and `""` behave identically there, so it is
  modelled as a `String` with `""` standing for `null`.
-/

namespace Dungeon

def GRID_W : Nat := 4
def GRID_H : Nat := 4

/-- `const cellSize = 1`. -/
def cellSize : ℚ := 1

/-- `const halfW = (GRID_W * cellSize) / 2`. -/
def halfW : ℚ := ((GRID_W : ℚ) * cellSize) / 2

/-- `const halfH = (GRID_H * cellSize) / 2`. -/
def halfH : ℚ := ((GRID_H : ℚ) * cellSize) / 2

/-- `clamp(n, a, b) = Math.max(a, Math.min(b, n))`. -/
def clamp {α : Type} [LinearOrder α] (n a b : α) : α :=
  max a (min b n)

/-- `idxCell(x, y) = y * GRID_W + x`. -/
def idxCell (x y : Nat) : Nat := y * GRID_W + x

/-- `idxHEdge(x, y) = y * GRID_W + x`. -/
def idxHEdge (x y : Nat) : Nat := y * GRID_W + x

/-- `idxVEdge(x, y) = y * (GRID_W + 1) + x`. -/
def idxVEdge (x y : Nat) : Nat := y * (GRID_W + 1) + x

/-- `LightProps`: `{ color, intensity, distance, decay }`. -/
structure LightProps where
  color : String
  intensity : ℚ
  distance : ℚ
  decay : ℚ
deriving DecidableEq, Repr

/-- `ObjectPlacement`: `{ type, rotation, light? }`.  The optional
`light` field is `Option`; the runtime `type` and `rotation` are raw
JSON values, hence `String` and `ℤ`. -/
structure ObjectPlacement where
  type : String
  rotation : ℤ
  light : Option LightProps
deriving DecidableEq, Repr

/-- The object value `{ type: "none", rotation: 0 }`. -/
def defaultObj : ObjectPlacement := ⟨"none", 0, none⟩

/-- `BoardState`: four parallel arrays. -/
structure BoardState where
  cells : List String
  hEdges : List String
  vEdges : List String
  objects : List ObjectPlacement
deriving DecidableEq, Repr

/-- `makeEmptyState()`. -/
def makeEmptyState : BoardState :=
  { cells := List.replicate (GRID_W * GRID_H) "floor"
  , hEdges := List.replicate ((GRID_H + 1) * GRID_W) "none"
  , vEdges := List.replicate (GRID_H * (GRID_W + 1)) "none"
  , objects := List.replicate (GRID_W * GRID_H) defaultObj }

/-- `CustomPlacement`: a placed external (GLB) asset.  All numeric
fields are raw JS numbers. -/
structure CustomPlacement where
  id : ℚ
  name : String
  url : String
  x : ℚ
  y : ℚ
  scale : ℚ
  yOffset : ℚ
  rotation : ℚ
deriving DecidableEq, Repr

/-- Direction tag of an edge pick (`dir: "h" | "v"`). -/
inductive EdgeDir where
  | h
  | v
deriving DecidableEq, Repr

/-- `Pick`: `{kind: "cell", x, y} | {kind: "edge", dir, x, y}`.  The
coordinates the protocol produces are clamped non-negative integers,
hence `Nat`. -/
inductive Pick where
  | cell (x y : Nat)
  | edge (dir : EdgeDir) (x y : Nat)
deriving DecidableEq, Repr

def Pick.isCell : Pick → Bool
  | .cell _ _ => true
  | .edge _ _ _ => false

def Pick.px : Pick → Nat
  | .cell x _ => x
  | .edge _ x _ => x

def Pick.py : Pick → Nat
  | .cell _ y => y
  | .edge _ _ y => y

/-- The tool/brush selection state read (never written) by `applyPick`
and `pickFromMouse`: `mode`, `cellBrush`, `edgeBrush`, `objectBrush`,
`lightBrush`, `customBrush` (with `""` for `null`), and the set of
loaded template names (`customTemplates` keys). -/
structure ToolConfig where
  mode : String
  cellBrush : String
  edgeBrush : String
  objectBrush : String
  lightBrush : LightProps
  customBrush : String
  templates : List String
deriving DecidableEq, Repr

/-- The mutable React state touched by the edit engine and the codec:
`board`, `customObjects`, `selectedLightCell`, `editingLight`,
`selectedCustomId`, the `nextCustomIdRef` counter and the `status`
message. -/
structure EditorState where
  board : BoardState
  customObjects : List CustomPlacement
  selectedLightCell : Option Nat
  editingLight : Option LightProps
  selectedCustomId : Option ℚ
  nextCustomId : ℤ
  status : String
deriving DecidableEq, Repr

/-- The initial session state: `makeEmptyState()` board, no custom
objects, `nextCustomIdRef = useRef(1)`, empty status. -/
def initialState : EditorState :=
  { board := makeEmptyState
  , customObjects := []
  , selectedLightCell := none
  , editingLight := none
  , selectedCustomId := none
  , nextCustomId := 1
  , status := "" }

/-- The pure tail of `pickFromMouse`: from the ground-plane hit point
`(px, pz)` (the raycast against `PICK_PLANE` is the external collaborator) and
the current tool mode, compute the discrete `Pick`.  Mirrors lines
976–1007 of the source. -/
def pickFromPoint (mode : String) (px pz : ℚ) : Pick :=
  let lx := px + halfW
  let lz := pz + halfH
  let cxZ : ℤ := clamp ⌊lx / cellSize⌋ 0 ((GRID_W : ℤ) - 1)
  let cyZ : ℤ := clamp ⌊lz / cellSize⌋ 0 ((GRID_H : ℤ) - 1)
  let cx : Nat := cxZ.toNat
  let cy : Nat := cyZ.toNat
  let localX := lx - (cxZ : ℚ) * cellSize
  let localZ := lz - (cyZ : ℚ) * cellSize
  let edgeSnap := (0.18 : ℚ) * cellSize
  let dLeft := localX
  let dRight := cellSize - localX
  let dTop := localZ
  let dBottom := cellSize - localZ
  let minD := min (min (min dLeft dRight) dTop) dBottom
  if mode ≠ "edges" then
    .cell cx cy
  else
    if minD ≤ edgeSnap then
      if minD = dTop then .edge .h cx cy
      else if minD = dBottom then .edge .h cx (cy + 1)
      else if minD = dLeft then .edge .v cx cy
      else .edge .v (cx + 1) cy
    else
      .cell cx cy

/-- The pure tail of `getCellFromMouse`: clamped cell under the
ground-plane point. -/
def getCellFromMouse (px pz : ℚ) : Nat × Nat :=
  let lx := px + halfW
  let lz := pz + halfH
  ((clamp ⌊lx / cellSize⌋ 0 ((GRID_W : ℤ) - 1)).toNat,
   (clamp ⌊lz / cellSize⌋ 0 ((GRID_H : ℤ) - 1)).toNat)

/-- `handleCustomDrag`, move branch: reposition the dragged asset onto
the cell under the pointer. -/
def moveCustom (st : EditorState) (id : ℚ) (px pz : ℚ) : EditorState :=
  let c := getCellFromMouse px pz
  { st with customObjects :=
      st.customObjects.map fun o =>
        if o.id = id then { o with x := (c.1 : ℚ), y := (c.2 : ℚ) } else o }

/-- `handleCustomDrag`, scale branch: `scale = clamp(scale + dy, 0.3, 3)`. -/
def scaleCustom (st : EditorState) (id : ℚ) (dy : ℚ) : EditorState :=
  { st with customObjects :=
      st.customObjects.map fun o =>
        if o.id = id then { o with scale := clamp (o.scale + dy) 0.3 3 } else o }

/-- Status text of the cells-mode paint message
`Cella (x+1,y+1) = Pavimento|Baratro|Acqua`. -/
def cellPaintMsg (x y : Nat) (cellBrush : String) : String :=
  "Cella (" ++ toString (x + 1) ++ "," ++ toString (y + 1) ++ ") = " ++
    (if cellBrush = "floor" then "Pavimento"
     else if cellBrush = "pit" then "Baratro" else "Acqua")

def bridgeRejectMsg : String := "Il ponte si puo piazzare solo su Acqua o Baratro."

def edgesModeHintMsg : String :=
  "Sei in modalita Bordi: per dipingere Acqua/Baratro passa a \x27Celle\x27."

def loadTemplateFirstMsg : String := "Carica un oggetto prima di piazzarlo."

/-- Custom-GLB placement/erase path of `applyPick` (lines 1076–1096):
toggles an external asset on the picked cell; never touches the board. -/
def applyPickCustom (cfg : ToolConfig) (st : EditorState) (pick : Pick) :
    EditorState :=
  if cfg.customBrush ∉ cfg.templates then
    { st with status := loadTemplateFirstMsg }
  else
    match st.customObjects.findIdx?
        (fun c => decide (c.x = (pick.px : ℚ) ∧ c.y = (pick.py : ℚ))) with
    | some i =>
      let removed := st.customObjects.getD i ⟨0, "", "", 0, 0, 1, 0, 0⟩
      { st with
        customObjects := st.customObjects.eraseIdx i,
        selectedCustomId :=
          if st.selectedCustomId = some removed.id then none
          else st.selectedCustomId }
    | none =>
      let id := st.nextCustomId
      let created : CustomPlacement :=
        ⟨(id : ℚ), cfg.customBrush, cfg.customBrush,
          (pick.px : ℚ), (pick.py : ℚ), 1, 0, 0⟩
      { st with
        customObjects := st.customObjects ++ [created],
        nextCustomId := id + 1,
        selectedCustomId := some (id : ℚ) }

/-- `mode === "cells"` block of the cell-pick branch (lines 1109–1119):
paint the terrain brush, clearing a bridge when the brush is `floor`. -/
def applyCellCells (cfg : ToolConfig) (st : EditorState) (x y : Nat) :
    EditorState :=
  let i := idxCell x y
  let objects' :=
    if cfg.cellBrush = "floor" ∧
        (st.board.objects.getD i defaultObj).type = "bridge" then
      st.board.objects.set i defaultObj
    else st.board.objects
  { st with
    board := { st.board with
      cells := st.board.cells.set i cfg.cellBrush,
      objects := objects' },
    status := cellPaintMsg x y cfg.cellBrush }

/-- `mode === "objects"` block of the cell-pick branch (lines
1120–1164), after the initial `setSelectedCustomId(null)`. -/
def applyCellObjects (cfg : ToolConfig) (st : EditorState) (i : Nat) :
    EditorState :=
  if cfg.objectBrush = "light" then
    let prevLight := st.board.objects.getD i defaultObj
    { st with
      board := { st.board with
        objects := st.board.objects.set i
          ⟨"light", prevLight.rotation, some cfg.lightBrush⟩ },
      selectedLightCell := some i,
      editingLight := some cfg.lightBrush }
  else if cfg.objectBrush = "bridge" ∧
      (st.board.cells.getD i "floor") ≠ "water" ∧
      (st.board.cells.getD i "floor") ≠ "pit" then
    { st with status := bridgeRejectMsg }
  else if cfg.objectBrush = "none" then
    { st with
      board := { st.board with
        objects := st.board.objects.set i defaultObj },
      selectedLightCell :=
        if st.selectedLightCell = some i then none
        else st.selectedLightCell,
      editingLight :=
        if st.selectedLightCell = some i then none
        else st.editingLight }
  else
    let cur := st.board.objects.getD i defaultObj
    if cur.type = cfg.objectBrush then
      { st with
        board := { st.board with
          objects := st.board.objects.set i
            { cur with rotation := (cur.rotation + 90) % 360 } } }
    else
      { st with
        board := { st.board with
          objects := st.board.objects.set i
            ⟨cfg.objectBrush, 0, none⟩ },
        selectedLightCell :=
          if st.selectedLightCell = some i then none
          else st.selectedLightCell,
        editingLight :=
          if st.selectedLightCell = some i then none
          else st.editingLight }

/-- Cell-pick branch of the board reducer (lines 1106–1169). -/
def applyCellPick (cfg : ToolConfig) (st : EditorState) (x y : Nat) :
    EditorState :=
  if cfg.mode = "cells" then
    applyCellCells cfg st x y
  else if cfg.mode = "objects" then
    -- setSelectedCustomId(null) runs before every base-object edit
    applyCellObjects cfg { st with selectedCustomId := none } (idxCell x y)
  else
    { st with status := edgesModeHintMsg }

/-- Edge-pick branch of the board reducer (lines 1171–1181). -/
def applyEdgePick (cfg : ToolConfig) (st : EditorState) (dir : EdgeDir)
    (x y : Nat) : EditorState :=
  if cfg.mode ≠ "edges" then st
  else
    match dir with
    | .h =>
      let id := idxHEdge x y
      { st with board := { st.board with
          hEdges := st.board.hEdges.set id
            (if st.board.hEdges.getD id "none" = cfg.edgeBrush then "none"
             else cfg.edgeBrush) } }
    | .v =>
      let id := idxVEdge x y
      { st with board := { st.board with
          vEdges := st.board.vEdges.set id
            (if st.board.vEdges.getD id "none" = cfg.edgeBrush then "none"
             else cfg.edgeBrush) } }

/-- `applyPick(pick)`: the edit engine, lines 1074–1185 of the source.
A pure reducer `(ToolConfig, EditorState, Pick) → EditorState`. -/
def applyPick (cfg : ToolConfig) (st : EditorState) (pick : Pick) : EditorState :=
  -- Placement / erase of custom GLB objects takes priority
  if cfg.mode = "objects" ∧ pick.isCell = true ∧ cfg.customBrush ≠ "" ∧
      cfg.objectBrush = "none" then
    applyPickCustom cfg st pick
  else
    match pick with
    | .cell x y => applyCellPick cfg st x y
    | .edge dir x y => applyEdgePick cfg st dir x y

/-! ## Persistence codec

`exportJson` serializes `{version: 1, board, customObjects}` with
`JSON.stringify`; `importJson` parses the text and installs the board
per-field.  `JSON.stringify` followed by `JSON.parse` is the structural
identity on these records (an object field holding `undefined` — our
`none` light — is dropped by `stringify` and reads back as `undefined`,
i.e. the same `Option` value), so the codec is modelled on a structural
document type rather than on text. -/

/-- One of the four `data.board.*` fields as found in a parsed
document.  `missing` stands for an absent field or a present falsy
value (`undefined`, `null`, `0`, `""`, …): `importJson` treats those
identically (`!data.board.cells` throws).  `scalar` is a present,
truthy, non-Array value; every JS Array (even `[]`) is truthy. -/
inductive RawField (α : Type) where
  | missing
  | scalar
  | arr (xs : List α)
deriving DecidableEq, Repr

/-- JS truthiness of the field value. -/
def RawField.truthy : RawField α → Bool
  | .missing => false
  | .scalar => true
  | .arr _ => true

/-- One branch of the `nextBoard` construction:
`Array.isArray(f) && f.length === n ? f : dflt`. -/
def importField (f : RawField α) (n : Nat) (dflt : List α) : List α :=
  match f with
  | .arr xs => if xs.length = n then xs else dflt
  | _ => dflt

/-- The parsed `data.board` object. -/
structure RawBoard where
  cells : RawField String
  hEdges : RawField String
  vEdges : RawField String
  objects : RawField ObjectPlacement
deriving DecidableEq, Repr

/-- One parsed `data.customObjects` entry.  `some v` means the field is
present with a value of the checked type; `none` means absent or of
another type (for `url`, `none` means absent/`null`, matching the `??`
test). -/
structure RawCustom where
  id : Option ℚ
  name : Option String
  url : Option String
  x : Option ℚ
  y : Option ℚ
  scale : Option ℚ
  yOffset : Option ℚ
  rotation : Option ℚ
deriving DecidableEq, Repr

/-- The parsed top-level document.  `board = none` stands for
`!data.board` (absent or falsy); `customObjects = none` for
`!Array.isArray(data.customObjects)`. -/
structure RawDoc where
  board : Option RawBoard
  customObjects : Option (List RawCustom)
deriving DecidableEq, Repr

def loadErrorMsg : String := "Errore nel caricare il JSON."

def loadOkMsg : String := "Dungeon caricato."

/-- The `filter`/`map` over `data.customObjects`, threading the
`nextCustomIdRef` counter used when an entry has no numeric `id`. -/
def importCustoms : List RawCustom → ℤ → List CustomPlacement × ℤ
  | [], ctr => ([], ctr)
  | c :: rest, ctr =>
    match c.name, c.x, c.y with
    | some nm, some x, some y =>
      let idc : ℚ × ℤ :=
        match c.id with
        | some i => (i, ctr)
        | none => ((ctr : ℚ), ctr + 1)
      let place : CustomPlacement :=
        { id := idc.1
        , name := nm
        , url := c.url.getD nm
        , x := clamp x 0 ((GRID_W : ℚ) - 1)
        , y := clamp y 0 ((GRID_H : ℚ) - 1)
        , scale := match c.scale with | some s => clamp s 0.3 3 | none => 1
        , yOffset := match c.yOffset with | some v => clamp v (-1) 3 | none => 0
        , rotation := c.rotation.getD 0 }
      let out := importCustoms rest idc.2
      (place :: out.1, out.2)
    | _, _, _ => importCustoms rest ctr

/-- `importJson`, lines 1210–1265: the try-block over the parsed
document.  A thrown error (non-object data, missing/falsy `board` or
board field) lands in the catch: status set, no other state touched. -/
def importJson (doc : RawDoc) (st : EditorState) : EditorState :=
  match doc.board with
  | none => { st with status := loadErrorMsg }
  | some b =>
    if b.cells.truthy ∧ b.hEdges.truthy ∧ b.vEdges.truthy ∧
        b.objects.truthy then
      let nextBoard : BoardState :=
        { cells := importField b.cells (GRID_W * GRID_H) makeEmptyState.cells
        , hEdges := importField b.hEdges ((GRID_H + 1) * GRID_W) makeEmptyState.hEdges
        , vEdges := importField b.vEdges (GRID_H * (GRID_W + 1)) makeEmptyState.vEdges
        , objects := importField b.objects (GRID_W * GRID_H) makeEmptyState.objects }
      let customs : List CustomPlacement × ℤ :=
        match doc.customObjects with
        | some list => importCustoms list st.nextCustomId
        | none => (st.customObjects, st.nextCustomId)
      { st with
        board := nextBoard,
        customObjects := customs.1,
        nextCustomId := customs.2,
        selectedLightCell := none,
        editingLight := none,
        selectedCustomId := none,
        status := loadOkMsg }
    else
      { st with status := loadErrorMsg }

/-- Serialization of one `CustomPlacement`: every field is written with
its runtime type. -/
def exportCustom (c : CustomPlacement) : RawCustom :=
  { id := some c.id
  , name := some c.name
  , url := some c.url
  , x := some c.x
  , y := some c.y
  , scale := some c.scale
  , yOffset := some c.yOffset
  , rotation := some c.rotation }

/-- `exportJson`: the document `{version: 1, board, customObjects}`
produced from the live state. -/
def exportJson (st : EditorState) : RawDoc :=
  { board := some
      { cells := .arr st.board.cells
      , hEdges := .arr st.board.hEdges
      , vEdges := .arr st.board.vEdges
      , objects := .arr st.board.objects }
  , customObjects := some (st.customObjects.map exportCustom) }

/-! ## Invariants and reachability -/

/-- The four array-length invariants of `BoardState`. -/
def dimsOk (b : BoardState) : Prop :=
  b.cells.length = GRID_W * GRID_H ∧
  b.hEdges.length = (GRID_H + 1) * GRID_W ∧
  b.vEdges.length = GRID_H * (GRID_W + 1) ∧
  b.objects.length = GRID_W * GRID_H

instance (b : BoardState) : Decidable (dimsOk b) :=
  inferInstanceAs (Decidable (b.cells.length = GRID_W * GRID_H ∧
    b.hEdges.length = (GRID_H + 1) * GRID_W ∧
    b.vEdges.length = GRID_H * (GRID_W + 1) ∧
    b.objects.length = GRID_W * GRID_H))

/-- The ranges a custom placement produced by valid placements and
drags satisfies: cell coordinates on the grid, scale in `[0.3, 3]`,
vertical offset in `[-1, 3]`. -/
def customOk (c : CustomPlacement) : Prop :=
  0 ≤ c.x ∧ c.x ≤ (GRID_W : ℚ) - 1 ∧
  0 ≤ c.y ∧ c.y ≤ (GRID_H : ℚ) - 1 ∧
  (0.3 : ℚ) ≤ c.scale ∧ c.scale ≤ 3 ∧
  (-1 : ℚ) ≤ c.yOffset ∧ c.yOffset ≤ 3

instance (c : CustomPlacement) : Decidable (customOk c) :=
  inferInstanceAs (Decidable (0 ≤ c.x ∧ c.x ≤ (GRID_W : ℚ) - 1 ∧
    0 ≤ c.y ∧ c.y ≤ (GRID_H : ℚ) - 1 ∧
    (0.3 : ℚ) ≤ c.scale ∧ c.scale ≤ 3 ∧
    (-1 : ℚ) ≤ c.yOffset ∧ c.yOffset ≤ 3))

/-- One object record satisfies the light-presence invariant:
`light` is defined iff `type == "light"`. -/
def objOk (o : ObjectPlacement) : Prop :=
  o.light.isSome = true ↔ o.type = "light"

instance (o : ObjectPlacement) : Decidable (objOk o) :=
  inferInstanceAs (Decidable (o.light.isSome = true ↔ o.type = "light"))

/-- The board-wide light-presence invariant. -/
def lightOk (objs : List ObjectPlacement) : Prop :=
  ∀ o ∈ objs, objOk o

instance (objs : List ObjectPlacement) : Decidable (lightOk objs) :=
  List.decidableBAll _ objs

/-- Editor states reachable from the default session by valid edits:
picks produced by the picking protocol fed to the edit engine, plus the
drag collaborator's move/scale operations. -/
inductive Reachable : EditorState → Prop where
  | init : Reachable initialState
  | edit (cfg : ToolConfig) (px pz : ℚ) {s : EditorState} :
      Reachable s → Reachable (applyPick cfg s (pickFromPoint cfg.mode px pz))
  | dragMove (id px pz : ℚ) {s : EditorState} :
      Reachable s → Reachable (moveCustom s id px pz)
  | dragScale (id dy : ℚ) {s : EditorState} :
      Reachable s → Reachable (scaleCustom s id dy)

/-! ## Concrete scenario data used by witnesses and counterexamples -/

/-- The default light brush `{color: "#ffc878", intensity: 7.5,
distance: 3.2, decay: 2.0}`. -/
def baseLightBrush : LightProps := ⟨"#ffc878", 7.5, 3.2, 2⟩

/-- A tool configuration with the given mode and brushes, no custom
brush, no loaded templates. -/
def mkCfg (mode cellBrush edgeBrush objectBrush : String) : ToolConfig :=
  ⟨mode, cellBrush, edgeBrush, objectBrush, baseLightBrush, "", []⟩

/-- Light payload of the C10 document's first objects entry. -/
def c10Light : LightProps := ⟨"#ffffff", 1, 1, 1⟩

/-- Objects array of the C10 document: a `lever` carrying a light
payload, followed by fifteen default entries. -/
def c10Objects : List ObjectPlacement :=
  ⟨"lever", 0, some c10Light⟩ :: List.replicate 15 defaultObj

/-- A document whose four arrays all have the correct length but whose
entries are invalid: `cells[0] = "lava"` and `objects[0]` is a lever
with a light payload. -/
def c10Doc : RawDoc :=
  { board := some
      { cells := .arr ("lava" :: List.replicate 15 "floor")
      , hEdges := .arr (List.replicate 20 "none")
      , vEdges := .arr (List.replicate 20 "none")
      , objects := .arr c10Objects }
  , customObjects := none }

/-- Objects-mode configuration with the bridge brush. -/
def cfgObjBridge : ToolConfig := mkCfg "objects" "floor" "wall" "bridge"

/-- Cells-mode configuration painting water. -/
def cfgCellsWater : ToolConfig := mkCfg "cells" "water" "wall" "lever"

/-- Edges-mode configuration with the wall brush. -/
def cfgEdgesWall : ToolConfig := mkCfg "edges" "floor" "wall" "lever"

/-- Cells-mode configuration painting floor. -/
def cfgCellsFloor : ToolConfig := mkCfg "cells" "floor" "wall" "lever"

/-- A state with a bridge object at cell (1,2) (over water). -/
def stBridge : EditorState :=
  { initialState with board :=
    { initialState.board with
      cells := initialState.board.cells.set (idxCell 1 2) "water",
      objects := initialState.board.objects.set (idxCell 1 2)
        ⟨"bridge", 0, none⟩ } }

/-- A state whose v-edge (2,1) already holds a wall. -/
def stVWall : EditorState :=
  { initialState with board :=
    { initialState.board with
      vEdges := initialState.board.vEdges.set (idxVEdge 2 1) "wall" } }

/-- A non-default in-memory state (one door on the h-edge array),
distinguishing "load rejected, state kept" from "field substituted". -/
def stRich : EditorState :=
  { initialState with board :=
    { initialState.board with
      hEdges := initialState.board.hEdges.set 0 "door" } }

/-- A document whose board is present with valid `hEdges`, `vEdges`,
`objects` arrays but whose `cells` field is absent. -/
def docCellsMissing : RawDoc :=
  { board := some
      { cells := .missing
      , hEdges := .arr (List.replicate 20 "wall")
      , vEdges := .arr (List.replicate 20 "door")
      , objects := .arr (List.replicate 16 defaultObj) }
  , customObjects := none }

/-- The board of the claim's malformed-load scenario: `cells` has
length 10, the other three arrays are valid. -/
def b10 : RawBoard :=
  { cells := .arr (List.replicate 10 "floor")
  , hEdges := .arr (List.replicate 20 "wall")
  , vEdges := .arr (List.replicate 20 "door")
  , objects := .arr (List.replicate 16 defaultObj) }

/-! ## Helper lemmas -/

theorem clamp_eq_self {α : Type} [LinearOrder α] {n a b : α}
    (h1 : a ≤ n) (h2 : n ≤ b) : clamp n a b = n := by
  simp [clamp, min_eq_right h2, max_eq_right h1]

theorem le_clamp {α : Type} [LinearOrder α] (n a b : α) : a ≤ clamp n a b :=
  le_max_left a _

theorem clamp_le {α : Type} [LinearOrder α] {a b : α} (n : α) (h : a ≤ b) :
    clamp n a b ≤ b :=
  max_le h (min_le_left b n)

theorem getD_set_self {α : Type} (l : List α) (i : Nat) (v d : α)
    (h : i < l.length) : (l.set i v).getD i d = v := by
  simp [List.getD_eq_getElem?_getD, List.getElem?_set_self h]

theorem objOk_defaultObj : objOk defaultObj := by decide

theorem lightOk_set {l : List ObjectPlacement} {v : ObjectPlacement}
    (h : lightOk l) (hv : objOk v) (i : Nat) : lightOk (l.set i v) := by
  intro o ho
  rcases List.mem_or_eq_of_mem_set ho with h1 | h2
  · exact h o h1
  · exact h2 ▸ hv

theorem objOk_getD {l : List ObjectPlacement} (h : lightOk l) (i : Nat) :
    objOk (l.getD i defaultObj) := by
  rcases lt_or_le i l.length with hi | hi
  · rw [List.getD_eq_getElem?_getD, List.getElem?_eq_getElem hi]
    exact h _ (List.getElem_mem hi)
  · rw [List.getD_eq_getElem?_getD, List.getElem?_eq_none hi]
    exact objOk_defaultObj

/-! ## Claim theorems -/

/-- C5: with edge-editing active, a ground-plane point is classified
from its offset within the clamped cell: if the least of the four
border distances is within the snap threshold `0.18 * cellSize`, the
pick is the nearest border's edge address (ties resolved top, bottom,
left, right, mapped top→h(cx,cy), bottom→h(cx,cy+1), left→v(cx,cy),
right→v(cx+1,cy)); otherwise the cell pick (cx,cy).  In particular a
point 0.05 units from the top border of cell (2,0) yields the h-edge
at (2,0). -/
theorem pickFromPoint_edge_mode_spec :
    (∀ px pz : ℚ,
      pickFromPoint "edges" px pz =
        (let lx := px + halfW
         let lz := pz + halfH
         let cxZ : ℤ := clamp ⌊lx / cellSize⌋ 0 ((GRID_W : ℤ) - 1)
         let cyZ : ℤ := clamp ⌊lz / cellSize⌋ 0 ((GRID_H : ℤ) - 1)
         let localX := lx - (cxZ : ℚ) * cellSize
         let localZ := lz - (cyZ : ℚ) * cellSize
         let dLeft := localX
         let dRight := cellSize - localX
         let dTop := localZ
         let dBottom := cellSize - localZ
         let minD := min (min (min dLeft dRight) dTop) dBottom
         if minD ≤ (0.18 : ℚ) * cellSize then
           if minD = dTop then Pick.edge .h cxZ.toNat cyZ.toNat
           else if minD = dBottom then Pick.edge .h cxZ.toNat (cyZ.toNat + 1)
           else if minD = dLeft then Pick.edge .v cxZ.toNat cyZ.toNat
           else Pick.edge .v (cxZ.toNat + 1) cyZ.toNat
         else Pick.cell cxZ.toNat cyZ.toNat)) ∧
    pickFromPoint "edges" (0.5 : ℚ) (-1.95 : ℚ) = Pick.edge .h 2 0 :=
  ⟨fun _ _ => rfl, by
    norm_num [pickFromPoint, halfW, halfH, cellSize, clamp, GRID_W, GRID_H]
    rfl⟩

/-- C6: with edge-editing inactive (mode `cells` or `objects`), the
pick is always the clamped cell `(cx, cy)` with
`cx = clamp(⌊(px + W/2)/cellSize⌋, 0, W−1)` and
`cy = clamp(⌊(pz + H/2)/cellSize⌋, 0, H−1)`, never an edge, regardless
of proximity to a border; e.g. local point (0.5, 0.5) within cell
(1,2) yields the cell pick (1,2) in both modes. -/
theorem pickFromPoint_cell_mode_spec :
    halfW = (GRID_W : ℚ) / 2 ∧ halfH = (GRID_H : ℚ) / 2 ∧
    (∀ px pz : ℚ,
      pickFromPoint "cells" px pz =
        Pick.cell (clamp ⌊(px + halfW) / cellSize⌋ 0 ((GRID_W : ℤ) - 1)).toNat
                  (clamp ⌊(pz + halfH) / cellSize⌋ 0 ((GRID_H : ℤ) - 1)).toNat) ∧
    (∀ px pz : ℚ,
      pickFromPoint "objects" px pz =
        Pick.cell (clamp ⌊(px + halfW) / cellSize⌋ 0 ((GRID_W : ℤ) - 1)).toNat
                  (clamp ⌊(pz + halfH) / cellSize⌋ 0 ((GRID_H : ℤ) - 1)).toNat) ∧
    pickFromPoint "cells" (-0.5 : ℚ) (0.5 : ℚ) = Pick.cell 1 2 ∧
    pickFromPoint "objects" (-0.5 : ℚ) (0.5 : ℚ) = Pick.cell 1 2 :=
  ⟨by norm_num [halfW, cellSize], by norm_num [halfH, cellSize],
   fun _ _ => rfl, fun _ _ => rfl,
   by norm_num [pickFromPoint, halfW, halfH, cellSize, clamp, GRID_W, GRID_H]; rfl,
   by norm_num [pickFromPoint, halfW, halfH, cellSize, clamp, GRID_W, GRID_H]; rfl⟩

/-- C10: `importJson` validates the four arrays only by `Array.isArray`
and exact length and installs entries verbatim; the document `c10Doc`
is accepted with the success status, its objects installed verbatim,
yet the resulting board violates the light-presence invariant and
holds a cell value outside the `CellType` enumeration. -/
theorem importJson_no_entry_validation :
    (importJson c10Doc initialState).status = loadOkMsg ∧
    (importJson c10Doc initialState).board.objects = c10Objects ∧
    ¬ lightOk (importJson c10Doc initialState).board.objects ∧
    (importJson c10Doc initialState).board.cells.getD 0 "" = "lava" ∧
    ("lava" ≠ "floor" ∧ "lava" ≠ "pit" ∧ "lava" ≠ "water") := by
  decide

/-- C3: in objects mode with the bridge brush, a cell pick on terrain
that is neither water nor pit is rejected — board unchanged and the
"bridge requires water or pit" status raised; on water or pit terrain,
when the cell's object is not already a bridge, the object becomes
`{type: bridge, rotation: 0}`. -/
theorem applyPick_bridge_rule (cfg : ToolConfig) (st : EditorState) (x y : Nat)
    (hm : cfg.mode = "objects") (hb : cfg.objectBrush = "bridge") :
    (st.board.cells.getD (idxCell x y) "floor" ≠ "water" →
      st.board.cells.getD (idxCell x y) "floor" ≠ "pit" →
      (applyPick cfg st (.cell x y)).board = st.board ∧
      (applyPick cfg st (.cell x y)).status = bridgeRejectMsg) ∧
    ((st.board.cells.getD (idxCell x y) "floor" = "water" ∨
      st.board.cells.getD (idxCell x y) "floor" = "pit") →
      (st.board.objects.getD (idxCell x y) defaultObj).type ≠ "bridge" →
      (applyPick cfg st (.cell x y)).board.objects =
        st.board.objects.set (idxCell x y) ⟨"bridge", 0, none⟩) := by
  constructor
  · intro hw hp
    simp only [List.getD_eq_getElem?_getD] at hw hp
    simp [applyPick, Pick.isCell, applyCellPick, applyCellObjects, hm, hb, hw, hp]
  · intro hwp hnb
    simp only [List.getD_eq_getElem?_getD] at hwp hnb
    rcases hwp with hw | hw <;>
      simp [applyPick, Pick.isCell, applyCellPick, applyCellObjects, hm, hb, hw, hnb]

/-- Witness for C3, the claim's concrete scenario: on the default board
(`cells[idxCell(1,1)] = "floor"`) placing a bridge at (1,1) leaves the
board unchanged and raises the rejection status; after repainting
(1,1) to water through the edit engine, placing a bridge succeeds and
stores `{type: bridge, rotation: 0}`. -/
theorem applyPick_bridge_rule_witness :
    ((applyPick cfgObjBridge initialState (.cell 1 1)).board =
        initialState.board ∧
      (applyPick cfgObjBridge initialState (.cell 1 1)).status =
        bridgeRejectMsg) ∧
    (applyPick cfgObjBridge
        (applyPick cfgCellsWater initialState (.cell 1 1))
        (.cell 1 1)).board.objects =
      (applyPick cfgCellsWater initialState (.cell 1 1)).board.objects.set
        (idxCell 1 1) ⟨"bridge", 0, none⟩ := by
  constructor
  · exact (applyPick_bridge_rule cfgObjBridge initialState 1 1 rfl rfl).1
      (by decide) (by decide)
  · exact (applyPick_bridge_rule cfgObjBridge
      (applyPick cfgCellsWater initialState (.cell 1 1)) 1 1 rfl rfl).2
      (by decide) (by decide)

/-- C2: every rejected edit leaves the board untouched: the bridge
brush on terrain that is neither water nor pit, a cell pick in edges
mode, and an edge pick in any mode other than edges all return a state
whose `BoardState` equals the previous one. -/
theorem applyPick_rejection_preserves_board (cfg : ToolConfig)
    (st : EditorState) (x y : Nat) :
    (cfg.mode = "objects" → cfg.objectBrush = "bridge" →
      st.board.cells.getD (idxCell x y) "floor" ≠ "water" →
      st.board.cells.getD (idxCell x y) "floor" ≠ "pit" →
      (applyPick cfg st (.cell x y)).board = st.board) ∧
    (cfg.mode = "edges" → (applyPick cfg st (.cell x y)).board = st.board) ∧
    (∀ d : EdgeDir, cfg.mode ≠ "edges" →
      (applyPick cfg st (.edge d x y)).board = st.board) := by
  refine ⟨fun hm hb hw hp => ?_, fun hm => ?_, fun d hm => ?_⟩
  · simp only [List.getD_eq_getElem?_getD] at hw hp
    simp [applyPick, Pick.isCell, applyCellPick, applyCellObjects, hm, hb, hw, hp]
  · simp [applyPick, Pick.isCell, applyCellPick, hm]
  · cases d <;> simp [applyPick, Pick.isCell, applyEdgePick, hm]

/-- Witness for C2: the three rejection shapes evaluated concretely on
the default state. -/
theorem applyPick_rejection_preserves_board_witness :
    (applyPick cfgObjBridge initialState (.cell 2 2)).board =
      initialState.board ∧
    (applyPick cfgEdgesWall initialState (.cell 0 0)).board =
      initialState.board ∧
    (applyPick cfgCellsWater initialState (.edge .h 1 1)).board =
      initialState.board := by
  refine ⟨?_, ?_, ?_⟩
  · exact (applyPick_rejection_preserves_board cfgObjBridge initialState 2 2).1
      rfl rfl (by decide) (by decide)
  · exact (applyPick_rejection_preserves_board cfgEdgesWall initialState 0 0).2.1 rfl
  · exact (applyPick_rejection_preserves_board cfgCellsWater initialState 1 1).2.2
      .h (by decide)

/-- C4: a cells-mode edit sets the picked cell to the cell brush;
painting `floor` onto a cell holding a bridge resets that cell's
object to `{none, 0}`, while any cells-mode paint onto a cell without
a bridge leaves the objects array unchanged; no other cell and no edge
is modified. -/
theorem applyPick_cells_mode_effects (cfg : ToolConfig) (st : EditorState)
    (x y : Nat) (hm : cfg.mode = "cells") :
    (cfg.cellBrush = "floor" →
      (st.board.objects.getD (idxCell x y) defaultObj).type = "bridge" →
      (applyPick cfg st (.cell x y)).board.objects =
        st.board.objects.set (idxCell x y) defaultObj) ∧
    ((st.board.objects.getD (idxCell x y) defaultObj).type ≠ "bridge" →
      (applyPick cfg st (.cell x y)).board.objects = st.board.objects) ∧
    (applyPick cfg st (.cell x y)).board.cells =
      st.board.cells.set (idxCell x y) cfg.cellBrush ∧
    (∀ j, j ≠ idxCell x y →
      (applyPick cfg st (.cell x y)).board.cells.get? j =
        st.board.cells.get? j) ∧
    (applyPick cfg st (.cell x y)).board.hEdges = st.board.hEdges ∧
    (applyPick cfg st (.cell x y)).board.vEdges = st.board.vEdges ∧
    (∀ j, j ≠ idxCell x y →
      (applyPick cfg st (.cell x y)).board.objects.get? j =
        st.board.objects.get? j) := by
  have hred : applyPick cfg st (.cell x y) = applyCellCells cfg st x y := by
    simp [applyPick, Pick.isCell, applyCellPick, hm]
  rw [hred]
  refine ⟨fun hf hbr => ?_, fun hnb => ?_, ?_, fun j hj => ?_, ?_, ?_, fun j hj => ?_⟩
  · simp only [List.getD_eq_getElem?_getD] at hbr
    simp [applyCellCells, hf, hbr]
  · simp only [List.getD_eq_getElem?_getD] at hnb
    simp [applyCellCells, hnb]
  · simp [applyCellCells]
  · simp [applyCellCells, List.get?_eq_getElem?,
      List.getElem?_set_ne (Ne.symm hj)]
  · simp [applyCellCells]
  · simp [applyCellCells]
  · simp only [applyCellCells]
    split <;>
      simp [List.get?_eq_getElem?, List.getElem?_set_ne (Ne.symm hj)]

/-- Witness for C4: painting floor over the bridge at (1,2) clears the
object; painting floor on the bridge-free default board leaves objects
unchanged; non-picked cells and edges are untouched. -/
theorem applyPick_cells_mode_effects_witness :
    (applyPick cfgCellsFloor stBridge (.cell 1 2)).board.objects =
      stBridge.board.objects.set (idxCell 1 2) defaultObj ∧
    (applyPick cfgCellsFloor initialState (.cell 1 2)).board.objects =
      initialState.board.objects ∧
    (applyPick cfgCellsFloor stBridge (.cell 1 2)).board.cells =
      stBridge.board.cells.set (idxCell 1 2) "floor" ∧
    (applyPick cfgCellsFloor stBridge (.cell 1 2)).board.hEdges =
      stBridge.board.hEdges := by
  refine ⟨?_, ?_, ?_, ?_⟩
  · exact (applyPick_cells_mode_effects cfgCellsFloor stBridge 1 2 rfl).1
      rfl (by decide)
  · exact (applyPick_cells_mode_effects cfgCellsFloor initialState 1 2 rfl).2.1
      (by decide)
  · exact (applyPick_cells_mode_effects cfgCellsFloor stBridge 1 2 rfl).2.2.1
  · exact (applyPick_cells_mode_effects cfgCellsFloor stBridge 1 2 rfl).2.2.2.2.1

/-- Counterexample to C7 as stated: on a board whose v-edge (2,1)
already equals the wall brush, applying the wall edge edit twice at
that edge yields `"wall"`, not `"none"` (the first application resets
to none, the second sets the wall again). -/
theorem edge_toggle_twice_counterexample :
    stVWall.board.vEdges.getD (idxVEdge 2 1) "none" = "wall" ∧
    (applyPick cfgEdgesWall (applyPick cfgEdgesWall stVWall (.edge .v 2 1))
        (.edge .v 2 1)).board.vEdges.getD (idxVEdge 2 1) "none" = "wall" ∧
    ("wall" : String) ≠ "none" := by
  decide

/-- C7 amended: a single edges-mode application sets the edge to the
brush when its value differs from the brush and to `none` when it
equals the brush; consequently applying the same edge edit twice
returns the edge to `none` provided its value before the first
application differed from the brush (when it already equalled the
brush, two applications yield the brush again). -/
theorem applyPick_edge_toggle_law (cfg : ToolConfig) (st : EditorState)
    (x y : Nat) (hm : cfg.mode = "edges") :
    (idxHEdge x y < st.board.hEdges.length →
      ((st.board.hEdges.getD (idxHEdge x y) "none" = cfg.edgeBrush →
        (applyPick cfg st (.edge .h x y)).board.hEdges.getD
          (idxHEdge x y) "none" = "none") ∧
       (st.board.hEdges.getD (idxHEdge x y) "none" ≠ cfg.edgeBrush →
        (applyPick cfg st (.edge .h x y)).board.hEdges.getD
          (idxHEdge x y) "none" = cfg.edgeBrush) ∧
       (st.board.hEdges.getD (idxHEdge x y) "none" ≠ cfg.edgeBrush →
        (applyPick cfg (applyPick cfg st (.edge .h x y))
            (.edge .h x y)).board.hEdges.getD (idxHEdge x y) "none" =
          "none"))) ∧
    (idxVEdge x y < st.board.vEdges.length →
      ((st.board.vEdges.getD (idxVEdge x y) "none" = cfg.edgeBrush →
        (applyPick cfg st (.edge .v x y)).board.vEdges.getD
          (idxVEdge x y) "none" = "none") ∧
       (st.board.vEdges.getD (idxVEdge x y) "none" ≠ cfg.edgeBrush →
        (applyPick cfg st (.edge .v x y)).board.vEdges.getD
          (idxVEdge x y) "none" = cfg.edgeBrush) ∧
       (st.board.vEdges.getD (idxVEdge x y) "none" ≠ cfg.edgeBrush →
        (applyPick cfg (applyPick cfg st (.edge .v x y))
            (.edge .v x y)).board.vEdges.getD (idxVEdge x y) "none" =
          "none"))) := by
  have hredH : ∀ s : EditorState, applyPick cfg s (.edge .h x y) =
      { s with board := { s.board with
        hEdges := s.board.hEdges.set (idxHEdge x y)
          (if s.board.hEdges.getD (idxHEdge x y) "none" = cfg.edgeBrush
           then "none" else cfg.edgeBrush) } } := by
    intro s
    simp [applyPick, Pick.isCell, applyEdgePick, hm]
  have hredV : ∀ s : EditorState, applyPick cfg s (.edge .v x y) =
      { s with board := { s.board with
        vEdges := s.board.vEdges.set (idxVEdge x y)
          (if s.board.vEdges.getD (idxVEdge x y) "none" = cfg.edgeBrush
           then "none" else cfg.edgeBrush) } } := by
    intro s
    simp [applyPick, Pick.isCell, applyEdgePick, hm]
  constructor
  · intro hlt
    refine ⟨fun he => ?_, fun he => ?_, fun he => ?_⟩
    · rw [hredH]
      show (st.board.hEdges.set (idxHEdge x y) _).getD (idxHEdge x y) "none" = _
      rw [if_pos he, getD_set_self _ _ _ _ hlt]
    · rw [hredH]
      show (st.board.hEdges.set (idxHEdge x y) _).getD (idxHEdge x y) "none" = _
      rw [if_neg he, getD_set_self _ _ _ _ hlt]
    · rw [hredH, hredH]
      show ((st.board.hEdges.set (idxHEdge x y) _).set (idxHEdge x y) _).getD
        (idxHEdge x y) "none" = _
      have hlt2 : idxHEdge x y <
          (st.board.hEdges.set (idxHEdge x y)
            (if st.board.hEdges.getD (idxHEdge x y) "none" = cfg.edgeBrush
             then "none" else cfg.edgeBrush)).length := by
        simpa using hlt
      rw [getD_set_self _ _ _ _ hlt2, if_neg he,
        getD_set_self _ _ _ _ hlt, if_pos rfl]
  · intro hlt
    refine ⟨fun he => ?_, fun he => ?_, fun he => ?_⟩
    · rw [hredV]
      show (st.board.vEdges.set (idxVEdge x y) _).getD (idxVEdge x y) "none" = _
      rw [if_pos he, getD_set_self _ _ _ _ hlt]
    · rw [hredV]
      show (st.board.vEdges.set (idxVEdge x y) _).getD (idxVEdge x y) "none" = _
      rw [if_neg he, getD_set_self _ _ _ _ hlt]
    · rw [hredV, hredV]
      show ((st.board.vEdges.set (idxVEdge x y) _).set (idxVEdge x y) _).getD
        (idxVEdge x y) "none" = _
      have hlt2 : idxVEdge x y <
          (st.board.vEdges.set (idxVEdge x y)
            (if st.board.vEdges.getD (idxVEdge x y) "none" = cfg.edgeBrush
             then "none" else cfg.edgeBrush)).length := by
        simpa using hlt
      rw [getD_set_self _ _ _ _ hlt2, if_neg he,
        getD_set_self _ _ _ _ hlt, if_pos rfl]

/-- Witness for the amended C7: starting from the default board (v-edge
(2,1) is `none` ≠ wall), one wall application sets the edge to wall and
a second returns it to none. -/
theorem applyPick_edge_toggle_law_witness :
    (applyPick cfgEdgesWall initialState (.edge .v 2 1)).board.vEdges.getD
      (idxVEdge 2 1) "none" = "wall" ∧
    (applyPick cfgEdgesWall (applyPick cfgEdgesWall initialState
        (.edge .v 2 1)) (.edge .v 2 1)).board.vEdges.getD
      (idxVEdge 2 1) "none" = "none" := by
  constructor
  · exact ((applyPick_edge_toggle_law cfgEdgesWall initialState 2 1 rfl).2
      (by decide)).2.1 (by decide)
  · exact ((applyPick_edge_toggle_law cfgEdgesWall initialState 2 1 rfl).2
      (by decide)).2.2 (by decide)

/-- C9: the invariant "`objects[i].light` is defined iff
`objects[i].type = "light"`" holds for `makeEmptyState()` and is
preserved by every edit-engine operation, for every tool
configuration, state and pick. -/
theorem applyPick_light_invariant :
    lightOk makeEmptyState.objects ∧
    ∀ (cfg : ToolConfig) (st : EditorState) (p : Pick),
      lightOk st.board.objects → lightOk (applyPick cfg st p).board.objects := by
  refine ⟨by decide, fun cfg st p hok => ?_⟩
  rw [applyPick.eq_def]
  split
  · -- custom-asset path: the board is never touched
    rw [applyPickCustom]
    split
    · exact hok
    · split
      · exact hok
      · exact hok
  · -- board reducer
    split
    · -- cell pick
      rename_i x y _hnp
      rw [applyCellPick]
      split
      · -- cells mode
        rw [applyCellCells]
        dsimp only
        split
        · exact lightOk_set hok objOk_defaultObj _
        · exact hok
      · split
        · -- objects mode
          rw [applyCellObjects]
          split
          · -- light brush: payload present and type "light"
            refine lightOk_set hok ?_ _
            simp [objOk]
          · split
            · -- bridge rejected: board unchanged
              exact hok
            · split
              · -- eraser
                exact lightOk_set hok objOk_defaultObj _
              · -- rotate or replace
                rename_i hnl hnb hnn
                dsimp only
                split
                · -- rotate: type and light unchanged
                  refine lightOk_set hok ?_ _
                  have h := objOk_getD (l :=
                    ({ st with selectedCustomId := none } :
                      EditorState).board.objects) hok (idxCell x y)
                  simpa [objOk] using h
                · -- replace: light cleared, brush ≠ "light"
                  refine lightOk_set hok ?_ _
                  simpa [objOk] using hnl
        · -- edges-mode hint: board unchanged
          exact hok
    · -- edge pick
      rw [applyEdgePick.eq_def]
      split
      · exact hok
      · split
        · exact hok
        · exact hok

/-- Witness for C9: placing a light at (1,1) on the default board
preserves the invariant. -/
theorem applyPick_light_invariant_witness :
    lightOk (applyPick (mkCfg "objects" "floor" "wall" "light")
      initialState (.cell 1 1)).board.objects :=
  applyPick_light_invariant.2 (mkCfg "objects" "floor" "wall" "light")
    initialState (.cell 1 1) (by decide)

/-- Counterexample to C1 as stated: when `board` is present but
`board.cells` is absent, the load does not succeed with `cells`
substituted — the whole load is rejected (`!data.board.cells` throws),
the error status is raised, the in-memory board is kept unchanged, and
in particular the document's valid `hEdges` are not retained. -/
theorem importJson_absent_field_counterexample :
    (importJson docCellsMissing stRich).status = loadErrorMsg ∧
    (importJson docCellsMissing stRich).board = stRich.board ∧
    (importJson docCellsMissing stRich).board.hEdges ≠
      List.replicate 20 "wall" := by
  decide

/-- C1 amended: when the board object and all four of its fields are
present and truthy, the load succeeds and each field that is an Array
of the correct length is retained verbatim while each other field is
substituted from `makeEmptyState()`; when any of the four fields is
absent (or falsy), the whole load is rejected with the error status
and no state change. -/
theorem importJson_per_field_fallback (st : EditorState) (b : RawBoard)
    (co : Option (List RawCustom)) :
    ((b.cells.truthy = true ∧ b.hEdges.truthy = true ∧
      b.vEdges.truthy = true ∧ b.objects.truthy = true) →
      (importJson ⟨some b, co⟩ st).status = loadOkMsg ∧
      (importJson ⟨some b, co⟩ st).board.cells =
        (match b.cells with
         | .arr xs =>
            if xs.length = GRID_W * GRID_H then xs else makeEmptyState.cells
         | _ => makeEmptyState.cells) ∧
      (importJson ⟨some b, co⟩ st).board.hEdges =
        (match b.hEdges with
         | .arr xs =>
            if xs.length = (GRID_H + 1) * GRID_W then xs
            else makeEmptyState.hEdges
         | _ => makeEmptyState.hEdges) ∧
      (importJson ⟨some b, co⟩ st).board.vEdges =
        (match b.vEdges with
         | .arr xs =>
            if xs.length = GRID_H * (GRID_W + 1) then xs
            else makeEmptyState.vEdges
         | _ => makeEmptyState.vEdges) ∧
      (importJson ⟨some b, co⟩ st).board.objects =
        (match b.objects with
         | .arr xs =>
            if xs.length = GRID_W * GRID_H then xs else makeEmptyState.objects
         | _ => makeEmptyState.objects)) ∧
    (¬ (b.cells.truthy = true ∧ b.hEdges.truthy = true ∧
        b.vEdges.truthy = true ∧ b.objects.truthy = true) →
      importJson ⟨some b, co⟩ st = { st with status := loadErrorMsg }) := by
  obtain ⟨fc, fh, fv, fo⟩ := b
  constructor
  · intro h
    rw [importJson]
    dsimp only
    rw [if_pos h]
    refine ⟨rfl, ?_, ?_, ?_, ?_⟩
    · cases fc <;> rfl
    · cases fh <;> rfl
    · cases fv <;> rfl
    · cases fo <;> rfl
  · intro h
    rw [importJson]
    dsimp only
    rw [if_neg h]

/-- Witness for the amended C1, the claim's scenario: a document whose
`board.cells` has length 10 but whose other three arrays are valid
loads with `cells` reset to all-floor and the other arrays retained
verbatim. -/
theorem importJson_per_field_fallback_witness :
    (importJson ⟨some b10, none⟩ initialState).status = loadOkMsg ∧
    (importJson ⟨some b10, none⟩ initialState).board.cells =
      makeEmptyState.cells ∧
    (importJson ⟨some b10, none⟩ initialState).board.hEdges =
      List.replicate 20 "wall" ∧
    (importJson ⟨some b10, none⟩ initialState).board.vEdges =
      List.replicate 20 "door" ∧
    (importJson ⟨some b10, none⟩ initialState).board.objects =
      List.replicate 16 defaultObj := by
  have h := (importJson_per_field_fallback initialState b10 none).1
    ⟨rfl, rfl, rfl, rfl⟩
  exact ⟨h.1, h.2.1, h.2.2.1, h.2.2.2.1, h.2.2.2.2⟩

/-! ## Round-trip machinery (C8) -/

theorem applyPick_lengths (cfg : ToolConfig) (st : EditorState) (p : Pick) :
    (applyPick cfg st p).board.cells.length = st.board.cells.length ∧
    (applyPick cfg st p).board.hEdges.length = st.board.hEdges.length ∧
    (applyPick cfg st p).board.vEdges.length = st.board.vEdges.length ∧
    (applyPick cfg st p).board.objects.length = st.board.objects.length := by
  rw [applyPick.eq_def]
  split
  · rw [applyPickCustom]
    split
    · exact ⟨rfl, rfl, rfl, rfl⟩
    · split
      · exact ⟨rfl, rfl, rfl, rfl⟩
      · exact ⟨rfl, rfl, rfl, rfl⟩
  · split
    · rename_i x y _h
      rw [applyCellPick]
      split
      · rw [applyCellCells]
        dsimp only
        split <;> simp
      · split
        · rw [applyCellObjects]
          split
          · simp
          · split
            · simp
            · split
              · simp
              · dsimp only
                split <;> simp
        · simp
    · rw [applyEdgePick.eq_def]
      split
      · simp
      · split <;> simp

theorem toNat_clamp_grid_le (z g : ℤ) (hg : g = 4) :
    (clamp z 0 (g - 1)).toNat ≤ 3 := by
  have h1 := clamp_le z (by omega : (0 : ℤ) ≤ g - 1)
  have h2 := le_clamp z 0 (g - 1)
  omega

theorem pickFromPoint_cell_bounds (m : String) (px pz : ℚ) (x y : Nat)
    (h : pickFromPoint m px pz = .cell x y) : x ≤ 3 ∧ y ≤ 3 := by
  have hW : ((GRID_W : ℤ)) = 4 := by norm_num [GRID_W]
  have hH : ((GRID_H : ℤ)) = 4 := by norm_num [GRID_H]
  simp only [pickFromPoint] at h
  split at h
  · simp only [Pick.cell.injEq] at h
    exact ⟨h.1 ▸ toNat_clamp_grid_le _ _ hW, h.2 ▸ toNat_clamp_grid_le _ _ hH⟩
  · split at h
    · split at h
      · exact absurd h (by simp)
      · split at h
        · exact absurd h (by simp)
        · split at h
          · exact absurd h (by simp)
          · exact absurd h (by simp)
    · simp only [Pick.cell.injEq] at h
      exact ⟨h.1 ▸ toNat_clamp_grid_le _ _ hW, h.2 ▸ toNat_clamp_grid_le _ _ hH⟩

theorem natCast_le_grid {n : Nat} (hn : n ≤ 3) (g : Nat) (hg : g = 4) :
    (n : ℚ) ≤ (g : ℚ) - 1 := by
  subst hg
  have h3 : (n : ℚ) ≤ (3 : ℚ) := by exact_mod_cast hn
  push_cast
  linarith

theorem applyPick_customOk (cfg : ToolConfig) (st : EditorState) (p : Pick)
    (hc : ∀ c ∈ st.customObjects, customOk c)
    (hp : ∀ x y, p = .cell x y → x ≤ 3 ∧ y ≤ 3) :
    ∀ c ∈ (applyPick cfg st p).customObjects, customOk c := by
  rw [applyPick.eq_def]
  split
  · rename_i hcond
    rw [applyPickCustom]
    split
    · exact hc
    · split
      · intro c hmem
        exact hc c (List.mem_of_mem_eraseIdx hmem)
      · intro c hmem
        rcases List.mem_append.mp hmem with h1 | h1
        · exact hc c h1
        · have hcc := List.mem_singleton.mp h1
          subst hcc
          cases p with
          | edge d a b => simp [Pick.isCell] at hcond
          | cell a b =>
            obtain ⟨ha3, hb3⟩ := hp a b rfl
            refine ⟨by positivity, ?_, by positivity, ?_, by norm_num,
              by norm_num, by norm_num, by norm_num⟩
            · exact natCast_le_grid ha3 GRID_W rfl
            · exact natCast_le_grid hb3 GRID_H rfl
  · split
    · rename_i x y _h
      rw [applyCellPick]
      split
      · rw [applyCellCells]
        exact hc
      · split
        · rw [applyCellObjects]
          split
          · exact hc
          · split
            · exact hc
            · split
              · exact hc
              · dsimp only
                split <;> exact hc
        · exact hc
    · rw [applyEdgePick.eq_def]
      split
      · exact hc
      · split <;> exact hc

theorem moveCustom_customOk (st : EditorState) (id px pz : ℚ)
    (hc : ∀ c ∈ st.customObjects, customOk c) :
    ∀ c ∈ (moveCustom st id px pz).customObjects, customOk c := by
  intro c hmem
  rw [moveCustom] at hmem
  dsimp only at hmem
  obtain ⟨a, ha, hfa⟩ := List.mem_map.mp hmem
  have hWq : ((GRID_W : ℤ)) = 4 := by norm_num [GRID_W]
  have hHq : ((GRID_H : ℤ)) = 4 := by norm_num [GRID_H]
  by_cases h : a.id = id
  · rw [if_pos h] at hfa
    subst hfa
    obtain ⟨_, _, _, _, h5, h6, h7, h8⟩ := hc a ha
    refine ⟨by positivity, ?_, by positivity, ?_, h5, h6, h7, h8⟩
    · exact natCast_le_grid (toNat_clamp_grid_le _ _ hWq) GRID_W rfl
    · exact natCast_le_grid (toNat_clamp_grid_le _ _ hHq) GRID_H rfl
  · rw [if_neg h] at hfa
    subst hfa
    exact hc a ha

theorem scaleCustom_customOk (st : EditorState) (id dy : ℚ)
    (hc : ∀ c ∈ st.customObjects, customOk c) :
    ∀ c ∈ (scaleCustom st id dy).customObjects, customOk c := by
  intro c hmem
  rw [scaleCustom] at hmem
  dsimp only at hmem
  obtain ⟨a, ha, hfa⟩ := List.mem_map.mp hmem
  by_cases h : a.id = id
  · rw [if_pos h] at hfa
    subst hfa
    obtain ⟨h1, h2, h3, h4, _, _, h7, h8⟩ := hc a ha
    refine ⟨h1, h2, h3, h4, le_clamp _ _ _, clamp_le _ (by norm_num), h7, h8⟩
  · rw [if_neg h] at hfa
    subst hfa
    exact hc a ha

/-- Every reachable editor state satisfies the board dimension
invariants, and every custom placement it holds lies within the
clamped ranges. -/
theorem reachable_inv (s : EditorState) (h : Reachable s) :
    dimsOk s.board ∧ ∀ c ∈ s.customObjects, customOk c := by
  induction h with
  | init => exact ⟨by decide, by simp [initialState]⟩
  | @edit cfg px pz s' _ ih =>
    obtain ⟨hd, hc⟩ := ih
    obtain ⟨l1, l2, l3, l4⟩ :=
      applyPick_lengths cfg s' (pickFromPoint cfg.mode px pz)
    refine ⟨⟨?_, ?_, ?_, ?_⟩, applyPick_customOk _ _ _ hc ?_⟩
    · rw [l1]; exact hd.1
    · rw [l2]; exact hd.2.1
    · rw [l3]; exact hd.2.2.1
    · rw [l4]; exact hd.2.2.2
    · intro x y hpk
      exact pickFromPoint_cell_bounds _ _ _ _ _ hpk
  | @dragMove id px pz s' _ ih =>
    exact ⟨ih.1, moveCustom_customOk _ _ _ _ ih.2⟩
  | @dragScale id dy s' _ ih =>
    exact ⟨ih.1, scaleCustom_customOk _ _ _ ih.2⟩

theorem importCustoms_map_exportCustom (l : List CustomPlacement) (ctr : ℤ)
    (h : ∀ c ∈ l, customOk c) :
    importCustoms (l.map exportCustom) ctr = (l, ctr) := by
  induction l generalizing ctr with
  | nil => simp [importCustoms]
  | cons c rest ih =>
    obtain ⟨cid, cname, curl, cx, cy, cs, cyo, crot⟩ := c
    obtain ⟨h1, h2, h3, h4, h5, h6, h7, h8⟩ :=
      h _ (List.mem_cons_self _ rest)
    simp only [List.map_cons, importCustoms, exportCustom]
    rw [ih ctr (fun a ha => h a (List.mem_cons_of_mem _ ha))]
    simp [clamp_eq_self h1 h2, clamp_eq_self h3 h4,
      clamp_eq_self h5 h6, clamp_eq_self h7 h8]

/-- C8: for every editor state reachable by valid edits, placements
and drags from the default session, deserializing the serialized
document restores the board and the custom placement list exactly,
with the success status (no error signalled). -/
theorem exportJson_importJson_round_trip (st : EditorState)
    (h : Reachable st) (st' : EditorState) :
    (importJson (exportJson st) st').board = st.board ∧
    (importJson (exportJson st) st').customObjects = st.customObjects ∧
    (importJson (exportJson st) st').status = loadOkMsg := by
  obtain ⟨⟨h1, h2, h3, h4⟩, hcust⟩ := reachable_inv st h
  rw [importJson, exportJson]
  dsimp only
  rw [if_pos ⟨rfl, rfl, rfl, rfl⟩]
  rw [importCustoms_map_exportCustom _ _ hcust]
  refine ⟨?_, rfl, rfl⟩
  show (BoardState.mk _ _ _ _) = st.board
  rw [importField, importField, importField, importField,
    if_pos h1, if_pos h2, if_pos h3, if_pos h4]

/-- Witness for C8: the round trip at the initial (reachable) state. -/
theorem exportJson_importJson_round_trip_witness :
    (importJson (exportJson initialState) initialState).board =
      initialState.board ∧
    (importJson (exportJson initialState) initialState).customObjects =
      initialState.customObjects ∧
    (importJson (exportJson initialState) initialState).status =
      loadOkMsg :=
  exportJson_importJson_round_trip initialState Reachable.init initialState

end Dungeon
